import Mathlib

/-!
Shallow embedding of the device-leasing cash-flow engine in `app.py`
(`PhoneOrder` and `MerchantSimulator3`), together with theorems settling
the specification claims about it.

Python floats are modelled by exact rationals (`ℚ`), Python ints by `ℤ`,
Python lists by `List`.  Code that can raise (`IndexError`, `ZeroDivisionError`,
`ValueError` from `random.randint`) is modelled with `Option`, `none` standing
for a raised exception.  The two ambient random draws consumed by
`simulate()` — the per-month order count from `random.randint` and the
per-order product choice from `random.random() < product1_ratio` — are
modelled as explicitly injected draw streams.
-/

namespace RentApp

/-- One leased device's repayment contract (`class PhoneOrder` in `app.py`). -/
structure PhoneOrder where
  start_month : ℤ
  phone_cost : ℚ
  lease_rate : ℚ
  repayment_period : ℤ
  first_payment_terms : ℤ
  default : Bool
  deriving Repr, DecidableEq

/-- `total_repayment = phone_cost * (1 + lease_rate)`, computed in `__init__`. -/
def PhoneOrder.total_repayment (o : PhoneOrder) : ℚ :=
  o.phone_cost * (1 + o.lease_rate)

/-- `monthly_payment = total_repayment / repayment_period`, computed in `__init__`;
`none` models the `ZeroDivisionError` raised when `repayment_period == 0`. -/
def PhoneOrder.monthly_payment (o : PhoneOrder) : Option ℚ :=
  if o.repayment_period = 0 then none
  else some (o.total_repayment / (o.repayment_period : ℚ))

/-- Python `[0] * n` over an integer count: a negative count yields `[]`. -/
def pyZeros (n : ℤ) : List ℚ := List.replicate n.toNat 0

/-- `get_monthly_cashflow`: `start_month - 1` periods of zero padding followed by
the repayment schedule of length `repayment_period - first_payment_terms + 1`
(index 0 is `monthly_payment * first_payment_terms`, the rest one `monthly_payment`
each; a defaulted order's schedule is all zeros).  `none` models the
`IndexError` on `repayments[0] = ...` when the schedule list
`[0] * (repayment_period - first_payment_terms + 1)` is empty, and the
`ZeroDivisionError` propagated from `__init__` when `repayment_period == 0`. -/
def PhoneOrder.get_monthly_cashflow (o : PhoneOrder) : Option (List ℚ) :=
  match o.monthly_payment with
  | none => none
  | some mp =>
    if o.default then
      some (pyZeros (o.start_month - 1) ++
        pyZeros (o.repayment_period - o.first_payment_terms + 1))
    else
      let n := (o.repayment_period - o.first_payment_terms + 1).toNat
      if n = 0 then none
      else
        some (pyZeros (o.start_month - 1) ++
          (mp * (o.first_payment_terms : ℚ) :: List.replicate (n - 1) mp))

/-- Closed form of a non-defaulted order's cash-flow list when
`0 ≤ first_payment_terms < repayment_period`. -/
lemma cashflow_eq (o : PhoneOrder) (h2 : 0 ≤ o.first_payment_terms)
    (h3 : o.first_payment_terms < o.repayment_period) (hd : o.default = false) :
    o.get_monthly_cashflow =
      some (pyZeros (o.start_month - 1) ++
        ((o.total_repayment / (o.repayment_period : ℚ)) * (o.first_payment_terms : ℚ) ::
          List.replicate (o.repayment_period - o.first_payment_terms).toNat
            (o.total_repayment / (o.repayment_period : ℚ)))) := by
  have hrp : ¬ o.repayment_period = 0 := by omega
  have hn : ¬ (o.repayment_period - o.first_payment_terms + 1).toNat = 0 := by omega
  have hn1 : (o.repayment_period - o.first_payment_terms + 1).toNat - 1
      = (o.repayment_period - o.first_payment_terms).toNat := by omega
  simp only [PhoneOrder.get_monthly_cashflow, PhoneOrder.monthly_payment,
    if_neg hrp, hd, Bool.false_eq_true, if_false, if_neg hn, hn1]

/-- Sum of the non-defaulted schedule. -/
lemma cashflow_sum (o : PhoneOrder) (h2 : 0 ≤ o.first_payment_terms)
    (h3 : o.first_payment_terms < o.repayment_period) (hd : o.default = false) :
    ∀ l, o.get_monthly_cashflow = some l → l.sum = o.phone_cost * (1 + o.lease_rate) := by
  intro l hl
  rw [cashflow_eq o h2 h3 hd] at hl
  have hrQ : (o.repayment_period : ℚ) ≠ 0 := by
    exact_mod_cast (by omega : o.repayment_period ≠ 0)
  have hcast : ((o.repayment_period - o.first_payment_terms).toNat : ℚ)
      = (o.repayment_period : ℚ) - (o.first_payment_terms : ℚ) := by
    have h := Int.toNat_of_nonneg (by omega : (0:ℤ) ≤ o.repayment_period - o.first_payment_terms)
    exact_mod_cast congrArg (fun z : ℤ => (z : ℚ)) h
  obtain rfl : l = _ := (Option.some.injEq _ _).mp hl.symm
  simp only [List.sum_append, pyZeros, List.sum_replicate, smul_zero, nsmul_eq_mul, zero_add,
    List.sum_cons, PhoneOrder.total_repayment]
  rw [hcast]
  field_simp
  ring

/-- C1: for every `PhoneOrder` with `repayment_period ≥ 1`,
`0 ≤ first_payment_terms < repayment_period`, `lease_rate ≥ 0` and
`default = false`, `get_monthly_cashflow()` succeeds and its sum equals
`phone_cost * (1 + lease_rate)` exactly over the rationals, regardless of
`first_payment_terms`. -/
theorem C1_schedule_total (o : PhoneOrder) (h1 : 1 ≤ o.repayment_period)
    (h2 : 0 ≤ o.first_payment_terms) (h3 : o.first_payment_terms < o.repayment_period)
    (h4 : 0 ≤ o.lease_rate) (h5 : o.default = false) :
    ∃ l, o.get_monthly_cashflow = some l ∧ l.sum = o.phone_cost * (1 + o.lease_rate) :=
  ⟨_, cashflow_eq o h2 h3 h5, cashflow_sum o h2 h3 h5 _ (cashflow_eq o h2 h3 h5)⟩

/-- Witness for C1 at the spec's concrete scenario
(cost 5000, rate 3/10, 9 periods, 2 first-payment terms). -/
theorem C1_schedule_total_witness :
    ∃ l, (PhoneOrder.mk 1 5000 (3/10) 9 2 false).get_monthly_cashflow = some l ∧
      l.sum = 5000 * (1 + 3/10) :=
  C1_schedule_total (PhoneOrder.mk 1 5000 (3/10) 9 2 false)
    (by decide) (by decide) (by decide) (by norm_num) rfl

/-- C9: for every parameter tuple with `repayment_period ≥ 1` and
`0 ≤ first_payment_terms < repayment_period`, a defaulted order's
`get_monthly_cashflow()` sums to 0 and has the same length as the sequence
of a non-defaulted order with identical parameters. -/
theorem C9_default_zeroing (o : PhoneOrder) (h1 : 1 ≤ o.repayment_period)
    (h2 : 0 ≤ o.first_payment_terms) (h3 : o.first_payment_terms < o.repayment_period)
    (hd : o.default = true) :
    ∃ l l', o.get_monthly_cashflow = some l ∧ l.sum = 0 ∧
      ({ o with default := false } : PhoneOrder).get_monthly_cashflow = some l' ∧
      l.length = l'.length := by
  have hrp : ¬ o.repayment_period = 0 := by omega
  have hcf : o.get_monthly_cashflow =
      some (pyZeros (o.start_month - 1) ++
        pyZeros (o.repayment_period - o.first_payment_terms + 1)) := by
    simp [PhoneOrder.get_monthly_cashflow, PhoneOrder.monthly_payment, hrp, hd]
  have hcf' := cashflow_eq { o with default := false } h2 h3 rfl
  refine ⟨_, _, hcf, ?_, hcf', ?_⟩
  · simp [pyZeros]
  · simp only [pyZeros, List.length_append, List.length_replicate, List.length_cons]
    omega

/-- Witness for C9: a defaulted order (cost 5000, rate 3/10, 9 periods,
2 first-payment terms) sums to 0 and matches the non-defaulted length. -/
theorem C9_default_zeroing_witness :
    ∃ l l', (PhoneOrder.mk 1 5000 (3/10) 9 2 true).get_monthly_cashflow = some l ∧
      l.sum = 0 ∧
      ({ PhoneOrder.mk 1 5000 (3/10) 9 2 true with default := false } :
        PhoneOrder).get_monthly_cashflow = some l' ∧
      l.length = l'.length :=
  C9_default_zeroing (PhoneOrder.mk 1 5000 (3/10) 9 2 true)
    (by decide) (by decide) (by decide) rfl

/-- C5 counterexample: for the non-defaulted order with cost 5000, rate 3/10,
9 periods and `first_payment_terms = 0`, the schedule's index-0 entry is 0,
not one per-period payment (the per-period payment is 6500/9 ≠ 0). -/
theorem C5_counterexample :
    (PhoneOrder.mk 1 5000 (3/10) 9 0 false).get_monthly_cashflow =
      some (0 :: List.replicate 9 ((6500 : ℚ)/9)) ∧
    (PhoneOrder.mk 1 5000 (3/10) 9 0 false).monthly_payment = some ((6500 : ℚ)/9) ∧
    (0 : ℚ) ≠ (6500 : ℚ)/9 := by
  refine ⟨?_, ?_, by norm_num⟩
  · rw [cashflow_eq _ (by decide) (by decide) rfl]
    norm_num [pyZeros, PhoneOrder.total_repayment, Int.toNat_ofNat]
    decide
  · norm_num [PhoneOrder.monthly_payment, PhoneOrder.total_repayment]

/-- C5 (amended): for every non-defaulted order with `first_payment_terms = 0`
and `repayment_period ≥ 1`, the index-0 schedule entry is 0 (the per-period
payment multiplied by `first_payment_terms = 0`), followed by `repayment_period`
entries of one per-period payment each. -/
theorem C5_amended_zero_first_terms (o : PhoneOrder) (h1 : 1 ≤ o.repayment_period)
    (hf : o.first_payment_terms = 0) (hd : o.default = false) :
    ∃ mp, o.monthly_payment = some mp ∧
      o.get_monthly_cashflow =
        some (pyZeros (o.start_month - 1) ++
          (0 :: List.replicate o.repayment_period.toNat mp)) := by
  have hrp : ¬ o.repayment_period = 0 := by omega
  refine ⟨o.total_repayment / (o.repayment_period : ℚ), ?_, ?_⟩
  · simp [PhoneOrder.monthly_payment, hrp]
  · rw [cashflow_eq o (by omega) (by omega) hd]
    simp [hf]

/-- Witness for C5 (amended) at cost 5000, rate 3/10, 9 periods, 0 first terms. -/
theorem C5_amended_zero_first_terms_witness :
    ∃ mp, (PhoneOrder.mk 1 5000 (3/10) 9 0 false).monthly_payment = some mp ∧
      (PhoneOrder.mk 1 5000 (3/10) 9 0 false).get_monthly_cashflow =
        some (pyZeros (1 - 1) ++ (0 :: List.replicate (9 : ℤ).toNat mp)) :=
  C5_amended_zero_first_terms (PhoneOrder.mk 1 5000 (3/10) 9 0 false)
    (by decide) rfl rfl

/-- C7 counterexample: the non-defaulted order with cost 4000, rate 1/4,
8 periods, `first_payment_terms = 0`, originated in period 2 and with positive
per-period payment 625, has a zero entry at 1-based index 2 (0-based index 1);
its first nonzero entry is at 1-based index 3, not at the origination index 2. -/
theorem C7_counterexample :
    (PhoneOrder.mk 2 4000 (1/4) 8 0 false).get_monthly_cashflow =
      some (0 :: 0 :: List.replicate 8 ((625 : ℚ))) ∧
    (PhoneOrder.mk 2 4000 (1/4) 8 0 false).monthly_payment = some ((625 : ℚ)) ∧
    ((0 : ℚ) :: 0 :: List.replicate 8 ((625 : ℚ))).getD 1 0 = 0 ∧
    ((0 : ℚ) :: 0 :: List.replicate 8 ((625 : ℚ))).getD 2 0 ≠ 0 := by
  refine ⟨?_, ?_, rfl, ?_⟩
  · rw [cashflow_eq _ (by decide) (by decide) rfl]
    norm_num [pyZeros, PhoneOrder.total_repayment]
    rfl
  · norm_num [PhoneOrder.monthly_payment, PhoneOrder.total_repayment]
  · norm_num [List.getD, List.get?]

/-- C7 (amended): a non-defaulted order with positive per-period payment and
`1 ≤ first_payment_terms < repayment_period` originated in period `k ≥ 1` has
exactly `k - 1` leading zeros and a nonzero entry at 1-based index `k`
(0-based index `k - 1`); with `first_payment_terms = 0` the index-`k` entry is
zero instead (see the counterexample). -/
theorem C7_amended_alignment (o : PhoneOrder) (mp : ℚ) (hmp : o.monthly_payment = some mp)
    (hpos : 0 < mp) (h0 : 1 ≤ o.first_payment_terms)
    (h3 : o.first_payment_terms < o.repayment_period) (hd : o.default = false)
    (hk : 1 ≤ o.start_month) :
    ∃ l, o.get_monthly_cashflow = some l ∧
      l.take (o.start_month - 1).toNat = List.replicate (o.start_month - 1).toNat 0 ∧
      l.getD (o.start_month - 1).toNat 0 ≠ 0 := by
  have hrp : ¬ o.repayment_period = 0 := by omega
  have hmp' : o.total_repayment / (o.repayment_period : ℚ) = mp := by
    have := hmp
    simp only [PhoneOrder.monthly_payment, if_neg hrp, Option.some.injEq] at this
    exact this
  have hlen : (pyZeros (o.start_month - 1)).length = (o.start_month - 1).toNat := by
    simp [pyZeros]
  refine ⟨_, cashflow_eq o (by omega) h3 hd, ?_, ?_⟩
  · calc (pyZeros (o.start_month - 1) ++
          (o.total_repayment / (o.repayment_period : ℚ) * (o.first_payment_terms : ℚ) ::
            List.replicate (o.repayment_period - o.first_payment_terms).toNat
              (o.total_repayment / (o.repayment_period : ℚ)))).take (o.start_month - 1).toNat
        = (pyZeros (o.start_month - 1) ++
          (o.total_repayment / (o.repayment_period : ℚ) * (o.first_payment_terms : ℚ) ::
            List.replicate (o.repayment_period - o.first_payment_terms).toNat
              (o.total_repayment / (o.repayment_period : ℚ)))).take
            (pyZeros (o.start_month - 1)).length := by rw [hlen]
      _ = pyZeros (o.start_month - 1) := List.take_left _ _
      _ = List.replicate (o.start_month - 1).toNat 0 := rfl
  · rw [List.getD_append_right _ _ _ _ (le_of_eq hlen), hlen, Nat.sub_self]
    simp only [List.getD_cons_zero, hmp']
    have hfq : (1 : ℚ) ≤ (o.first_payment_terms : ℚ) := by exact_mod_cast h0
    positivity

/-- Witness for C7 (amended): an order with 2 first-payment terms originated in
period 3 has its first nonzero entry at 1-based index 3. -/
theorem C7_amended_alignment_witness :
    ∃ l, (PhoneOrder.mk 3 5000 (3/10) 9 2 false).get_monthly_cashflow = some l ∧
      l.take ((3 : ℤ) - 1).toNat = List.replicate ((3 : ℤ) - 1).toNat 0 ∧
      l.getD ((3 : ℤ) - 1).toNat 0 ≠ 0 :=
  C7_amended_alignment (PhoneOrder.mk 3 5000 (3/10) 9 2 false) ((6500 : ℚ)/9)
    (by norm_num [PhoneOrder.monthly_payment, PhoneOrder.total_repayment])
    (by norm_num) (by decide) (by decide) rfl (by decide)

/-- The constructor parameters of `MerchantSimulator3.__init__` (`app.py`).
These fields are stored by `__init__` and never mutated afterwards. -/
structure Config where
  months : ℤ
  phone_cost : ℚ
  lease_rate1 : ℚ
  repayment_period1 : ℤ
  first_payment_terms1 : ℤ
  lease_rate2 : ℚ
  repayment_period2 : ℤ
  first_payment_terms2 : ℤ
  product1_ratio : ℚ
  service_fee_rate : ℚ
  bad_debt_rate : ℚ
  monthly_order_range : ℤ × ℤ
  investment_ratio : ℚ
  prepayment_rate : ℚ
  deriving Repr, DecidableEq

/-- The mutable run state of a `MerchantSimulator3` instance:
`monthly_investments`, `total_cashflow`, `orders`, `monthly_order_count`. -/
structure RunState where
  monthly_investments : List ℚ
  total_cashflow : List ℚ
  orders : List PhoneOrder
  monthly_order_count : List ℕ
  deriving Repr, DecidableEq

/-- The state set up by `__init__`: all four collections empty. -/
def RunState.init : RunState := ⟨[], [], [], []⟩

/-- Elementwise `base[i] += add[i]` for `i < len(add)` (the accumulation loop
of `simulate()`); `none` models the `IndexError` raised when `add` is longer
than `base`. -/
def addInto : List ℚ → List ℚ → Option (List ℚ)
  | base, [] => some base
  | [], _ :: _ => none
  | b :: bs, a :: tl => (addInto bs tl).map (fun r => (b + a) :: r)

/-- `max((repayment_period1 - first_payment_terms1), (repayment_period2 -
first_payment_terms2))`: the longest repayment tail over the two products. -/
def Config.repayment_tail (c : Config) : ℤ :=
  max (c.repayment_period1 - c.first_payment_terms1)
    (c.repayment_period2 - c.first_payment_terms2)

/-- `months + max(...)`: the length given to `total_cashflow` at the top of
`simulate()`. -/
def Config.max_months (c : Config) : ℤ :=
  c.months + c.repayment_tail

/-- The lease rate picked by the product draw (`if is_product1: ...`). -/
def Config.sel_rate (c : Config) (is_p1 : Bool) : ℚ :=
  if is_p1 then c.lease_rate1 else c.lease_rate2

/-- The repayment period picked by the product draw. -/
def Config.sel_period (c : Config) (is_p1 : Bool) : ℤ :=
  if is_p1 then c.repayment_period1 else c.repayment_period2

/-- The first-payment terms picked by the product draw. -/
def Config.sel_terms (c : Config) (is_p1 : Bool) : ℤ :=
  if is_p1 then c.first_payment_terms1 else c.first_payment_terms2

/-- The `PhoneOrder` built for one simulated order: origination at `month`,
`adjusted_lease_rate = prepayment_rate * (lease_rate / 2) +
(1 - prepayment_rate) * lease_rate`, no per-order default in this engine
variant (`default=False`). -/
def Config.madeOrder (c : Config) (month : ℤ) (is_p1 : Bool) : PhoneOrder :=
  ⟨month, c.phone_cost,
    c.prepayment_rate * (c.sel_rate is_p1 / 2) + (1 - c.prepayment_rate) * c.sel_rate is_p1,
    c.sel_period is_p1, c.sel_terms is_p1, false⟩

/-- `investment_per_order = (phone_cost + service_fee) * investment_ratio` with
`service_fee = phone_cost * (1 + lease_rate) * service_fee_rate`. -/
def Config.order_investment (c : Config) (is_p1 : Bool) : ℚ :=
  (c.phone_cost + c.phone_cost * (1 + c.sel_rate is_p1) * c.service_fee_rate) *
    c.investment_ratio

/-- The body of `simulate()`'s inner order loop for one order: choose the
product by the injected draw `is_p1` (`random.random() < product1_ratio`),
build the adjusted-rate `PhoneOrder`, and accumulate its bad-debt-scaled,
investment-ratio-scaled cash flow into `total_cashflow`.  Returns the updated
state and this order's `investment_per_order`. -/
def Config.orderStep (c : Config) (month : ℤ) (is_p1 : Bool) (s : RunState) :
    Option (RunState × ℚ) :=
  match (c.madeOrder month is_p1).get_monthly_cashflow with
  | none => none
  | some cf =>
    match addInto s.total_cashflow
        (cf.map (fun x => x * (1 - c.bad_debt_rate) * c.investment_ratio)) with
    | none => none
    | some tc =>
      some ({ s with
                total_cashflow := tc,
                orders := s.orders ++ [c.madeOrder month is_p1] },
        c.order_investment is_p1)

/-- `for _ in range(n_orders)`: run `orderStep` for orders `j, j+1, ...` using
the per-order product draws `pdm`, threading the accumulated
`investment_this_month` through `acc`. -/
def Config.orderLoop (c : Config) (month : ℤ) (pdm : ℕ → Bool) :
    ℕ → ℕ → RunState → ℚ → Option (RunState × ℚ)
  | _, 0, s, acc => some (s, acc)
  | j, n + 1, s, acc =>
    match c.orderStep month (pdm j) s with
    | none => none
    | some (s', inv) => c.orderLoop month pdm (j + 1) n s' (acc + inv)

/-- One iteration of `simulate()`'s month loop: check the order range
(`random.randint` raises `ValueError` when low > high, modelled by `none`),
record the drawn order count `nd month`, run the order loop, and append the
month's total investment. -/
def Config.monthStep (c : Config) (nd : ℕ → ℕ) (pd : ℕ → ℕ → Bool) (month : ℕ)
    (s : RunState) : Option RunState :=
  if c.monthly_order_range.1 ≤ c.monthly_order_range.2 then
    let n := nd month
    let s0 := { s with monthly_order_count := s.monthly_order_count ++ [n] }
    match c.orderLoop (month : ℤ) (pd month) 0 n s0 0 with
    | none => none
    | some (s1, inv) =>
      some { s1 with monthly_investments := s1.monthly_investments ++ [inv] }
  else none

/-- `for month in range(1, months + 1)` starting at month number `month` with
`k` months left to process. -/
def Config.simLoop (c : Config) (nd : ℕ → ℕ) (pd : ℕ → ℕ → Bool) :
    ℕ → ℕ → RunState → Option RunState
  | _, 0, s => some s
  | month, k + 1, s =>
    match c.monthStep nd pd month s with
    | none => none
    | some s' => c.simLoop nd pd (month + 1) k s'

/-- `simulate()`: reset `total_cashflow` to `[0] * max_months` (all other run
state is kept, and appended to), then run the month loop for months
`1 .. months`.  `nd` injects the `random.randint` order-count draw of each
month and `pd` the `random.random() < product1_ratio` product draw of each
order (month, order index). -/
def Config.simulate (c : Config) (nd : ℕ → ℕ) (pd : ℕ → ℕ → Bool)
    (s : RunState) : Option RunState :=
  c.simLoop nd pd 1 c.months.toNat
    { s with total_cashflow := List.replicate c.max_months.toNat 0 }

/-- `get_net_cashflow`: `total_cashflow[i] - monthly_investments[i]`, with the
investment treated as 0 beyond its recorded length. -/
def pySub : List ℚ → List ℚ → List ℚ
  | [], _ => []
  | t :: ts, [] => t :: pySub ts []
  | t :: ts, v :: vs => (t - v) :: pySub ts vs

def RunState.get_net_cashflow (s : RunState) : List ℚ :=
  pySub s.total_cashflow s.monthly_investments

/-- Running-total helper for the cumulative series. -/
def cumAux (acc : ℚ) : List ℚ → List ℚ
  | [] => []
  | x :: xs => (acc + x) :: cumAux (acc + x) xs

/-- Running sum of a list, as in `get_cumulative_cashflow`. -/
def cumsum (l : List ℚ) : List ℚ := cumAux 0 l

def RunState.get_cumulative_cashflow (s : RunState) : List ℚ :=
  cumsum s.get_net_cashflow

/-- `get_cumulative_investment`: running sum of `monthly_investments`,
right-padded with its last value (`cum[-1]`) up to `len(total_cashflow)`.
`none` models the `IndexError` of `cum[-1]` when `monthly_investments` is
empty (Python evaluates `cum[-1]` even when the pad count is ≤ 0). -/
def RunState.get_cumulative_investment (s : RunState) : Option (List ℚ) :=
  let cum := cumsum s.monthly_investments
  match cum.getLast? with
  | none => none
  | some last =>
    some (cum ++ List.replicate (s.total_cashflow.length - cum.length) last)

/-- Python `min(l)`; `none` models the `ValueError` on an empty list. -/
def pyMin : List ℚ → Option ℚ
  | [] => none
  | x :: xs => some (xs.foldl min x)

/-- `get_actual_investment`: `abs(min(cumulative cash flow))`. -/
def RunState.get_actual_investment (s : RunState) : Option ℚ :=
  (pyMin s.get_cumulative_cashflow).map (fun m => |m|)

/-- The scan of `get_breakeven_month`: first 1-based position whose value is
`≥ 0`, `none` when never reached. -/
def findPos (i : ℕ) : List ℚ → Option ℕ
  | [] => none
  | x :: xs => if 0 ≤ x then some (i + 1) else findPos (i + 1) xs

def RunState.get_breakeven_month (s : RunState) : Option ℕ :=
  findPos 0 s.get_cumulative_cashflow

/-- The documented domain constraints on the per-product period parameters
(spec section 6: `0 ≤ first_payment_terms < repayment_periods`). -/
def Config.Valid (c : Config) : Prop :=
  0 ≤ c.first_payment_terms1 ∧ c.first_payment_terms1 < c.repayment_period1 ∧
  0 ≤ c.first_payment_terms2 ∧ c.first_payment_terms2 < c.repayment_period2

instance (c : Config) : Decidable c.Valid := by
  unfold Config.Valid
  infer_instance

lemma Config.Valid.tail_pos {c : Config} (hv : c.Valid) : 1 ≤ c.repayment_tail := by
  obtain ⟨h1, h2, h3, h4⟩ := hv
  simp only [Config.repayment_tail, le_max_iff]
  omega

/-- Length of a non-defaulted schedule, as an integer. -/
lemma cashflow_length (o : PhoneOrder) (h2 : 0 ≤ o.first_payment_terms)
    (h3 : o.first_payment_terms < o.repayment_period) (hd : o.default = false)
    (hs : 1 ≤ o.start_month) :
    ∀ l, o.get_monthly_cashflow = some l →
      (l.length : ℤ) = o.start_month + (o.repayment_period - o.first_payment_terms) := by
  intro l hl
  rw [cashflow_eq o h2 h3 hd] at hl
  obtain rfl := (Option.some.injEq _ _).mp hl.symm
  simp only [List.length_append, pyZeros, List.length_replicate, List.length_cons]
  omega

lemma addInto_nil (b : List ℚ) : addInto b [] = some b := by
  cases b <;> rfl

lemma addInto_some (a : List ℚ) : ∀ b : List ℚ, a.length ≤ b.length →
    ∃ r, addInto b a = some r ∧ r.length = b.length := by
  induction a with
  | nil => exact fun b _ => ⟨b, addInto_nil b, rfl⟩
  | cons x xs ih =>
    intro b h
    cases b with
    | nil => simp at h
    | cons y ys =>
      obtain ⟨r, hr, hlen⟩ := ih ys (by simpa using h)
      exact ⟨(y + x) :: r, by simp [addInto, hr], by simp [hlen]⟩

lemma addInto_none (a : List ℚ) : ∀ b : List ℚ, addInto b a = none ↔ b.length < a.length := by
  induction a with
  | nil => intro b; simp [addInto_nil]
  | cons x xs ih =>
    intro b
    cases b with
    | nil => simp [addInto]
    | cons y ys => simp [addInto, Option.map_eq_none', ih ys, Nat.succ_lt_succ_iff]

lemma addInto_sum (a : List ℚ) : ∀ b r : List ℚ, addInto b a = some r →
    r.sum = b.sum + a.sum := by
  induction a with
  | nil =>
    intro b r h
    obtain rfl := (Option.some.injEq _ _).mp ((by simpa [addInto_nil] using h) : some b = some r)
    simp
  | cons x xs ih =>
    intro b r h
    cases b with
    | nil => simp [addInto] at h
    | cons y ys =>
      simp only [addInto, Option.map_eq_some'] at h
      obtain ⟨r', hr', rfl⟩ := h
      simp only [List.sum_cons, ih ys r' hr']
      ring

lemma addInto_nonneg (a : List ℚ) : ∀ b r : List ℚ, addInto b a = some r →
    (∀ x ∈ b, 0 ≤ x) → (∀ x ∈ a, 0 ≤ x) → ∀ x ∈ r, 0 ≤ x := by
  induction a with
  | nil =>
    intro b r h hb _
    obtain rfl := (Option.some.injEq _ _).mp ((by simpa [addInto_nil] using h) : some b = some r)
    exact hb
  | cons x xs ih =>
    intro b r h hb ha
    cases b with
    | nil => simp [addInto] at h
    | cons y ys =>
      simp only [addInto, Option.map_eq_some'] at h
      obtain ⟨r', hr', rfl⟩ := h
      intro z hz
      rcases List.mem_cons.mp hz with hz | hz
      · subst hz
        have hy := hb y (List.mem_cons_self _ _)
        have hx := ha x (List.mem_cons_self _ _)
        linarith
      · exact ih ys r' hr' (fun u hu => hb u (List.mem_cons_of_mem _ hu))
          (fun u hu => ha u (List.mem_cons_of_mem _ hu)) z hz

lemma Config.Valid.sel {c : Config} (hv : c.Valid) (is_p1 : Bool) :
    0 ≤ c.sel_terms is_p1 ∧ c.sel_terms is_p1 < c.sel_period is_p1 ∧
      c.sel_period is_p1 - c.sel_terms is_p1 ≤ c.repayment_tail := by
  obtain ⟨h1, h2, h3, h4⟩ := hv
  cases is_p1 <;>
    simp only [Config.sel_terms, Config.sel_period, Config.repayment_tail,
      Bool.false_eq_true, if_false, if_true, le_max_iff] <;>
    exact ⟨by omega, by omega, by omega⟩

lemma orderStep_eq_some (c : Config) (month : ℤ) (is_p1 : Bool) (s : RunState)
    (l r : List ℚ)
    (hcf : (c.madeOrder month is_p1).get_monthly_cashflow = some l)
    (hadd : addInto s.total_cashflow
      (l.map fun x => x * (1 - c.bad_debt_rate) * c.investment_ratio) = some r) :
    c.orderStep month is_p1 s =
      some ({ s with
                total_cashflow := r,
                orders := s.orders ++ [c.madeOrder month is_p1] },
        c.order_investment is_p1) := by
  simp only [Config.orderStep, hcf, hadd]

/-- Under the documented domain constraints, one order step at a month within
the horizon succeeds, keeps `total_cashflow`'s length, and leaves
`monthly_investments` and `monthly_order_count` untouched. -/
lemma orderStep_spec (c : Config) (hv : c.Valid) (month : ℤ) (hm : 1 ≤ month)
    (is_p1 : Bool) (s : RunState)
    (hL : month + c.repayment_tail ≤ (s.total_cashflow.length : ℤ)) :
    ∃ s' inv, c.orderStep month is_p1 s = some (s', inv) ∧
      s'.total_cashflow.length = s.total_cashflow.length ∧
      s'.monthly_investments = s.monthly_investments ∧
      s'.monthly_order_count = s.monthly_order_count := by
  obtain ⟨ht0, ht1, ht2⟩ := hv.sel is_p1
  obtain ⟨l, hcf⟩ : ∃ l, (c.madeOrder month is_p1).get_monthly_cashflow = some l :=
    ⟨_, cashflow_eq _ ht0 ht1 rfl⟩
  have hlen := cashflow_length (c.madeOrder month is_p1) ht0 ht1 rfl hm l hcf
  simp only [Config.madeOrder] at hlen
  have hmap : (l.map fun x => x * (1 - c.bad_debt_rate) * c.investment_ratio).length
      ≤ s.total_cashflow.length := by
    rw [List.length_map]
    omega
  obtain ⟨r, hadd, hrlen⟩ := addInto_some _ _ hmap
  exact ⟨_, _, orderStep_eq_some c month is_p1 s l r hcf hadd, hrlen, rfl, rfl⟩

/-- The whole order loop of one month succeeds and keeps the lengths, for any
drawn order count. -/
lemma orderLoop_spec (c : Config) (hv : c.Valid) (month : ℤ) (hm : 1 ≤ month)
    (pdm : ℕ → Bool) :
    ∀ (n j : ℕ) (s : RunState) (acc : ℚ),
      month + c.repayment_tail ≤ (s.total_cashflow.length : ℤ) →
      ∃ s' acc', c.orderLoop month pdm j n s acc = some (s', acc') ∧
        s'.total_cashflow.length = s.total_cashflow.length ∧
        s'.monthly_investments = s.monthly_investments ∧
        s'.monthly_order_count = s.monthly_order_count := by
  intro n
  induction n with
  | zero => exact fun j s acc _ => ⟨s, acc, rfl, rfl, rfl, rfl⟩
  | succ n ih =>
    intro j s acc hL
    obtain ⟨s1, inv, hstep, hlen1, hinv1, hcnt1⟩ := orderStep_spec c hv month hm (pdm j) s hL
    obtain ⟨s', acc', hloop, hlen2, hinv2, hcnt2⟩ :=
      ih (j + 1) s1 (acc + inv) (by rw [hlen1]; exact hL)
    exact ⟨s', acc', by simp only [Config.orderLoop, hstep, hloop],
      by rw [hlen2, hlen1], by rw [hinv2, hinv1], by rw [hcnt2, hcnt1]⟩

/-- One month of `simulate()` succeeds under the domain constraints and a
non-inverted order range, appending one entry each to `monthly_investments`
and `monthly_order_count`. -/
lemma monthStep_spec (c : Config) (hv : c.Valid) (nd : ℕ → ℕ) (pd : ℕ → ℕ → Bool)
    (month : ℕ) (hm : 1 ≤ month) (s : RunState)
    (hlo : c.monthly_order_range.1 ≤ c.monthly_order_range.2)
    (hL : (month : ℤ) + c.repayment_tail ≤ (s.total_cashflow.length : ℤ)) :
    ∃ s', c.monthStep nd pd month s = some s' ∧
      s'.total_cashflow.length = s.total_cashflow.length ∧
      s'.monthly_investments.length = s.monthly_investments.length + 1 ∧
      s'.monthly_order_count.length = s.monthly_order_count.length + 1 := by
  obtain ⟨s', acc', hloop, hlen, hinv, hcnt⟩ :=
    orderLoop_spec c hv (month : ℤ) (by exact_mod_cast hm) (pd month) (nd month) 0
      { s with monthly_order_count := s.monthly_order_count ++ [nd month] } 0 hL
  refine ⟨{ s' with monthly_investments := s'.monthly_investments ++ [acc'] },
    ?_, ?_, ?_, ?_⟩
  · simp only [Config.monthStep, if_pos hlo, hloop]
  · simpa using hlen
  · simp only [hinv]
    simp
  · simp only [hcnt]
    simp

/-- The whole month loop succeeds, preserves `total_cashflow`'s length and
appends `k` entries to the per-month series. -/
lemma simLoop_spec (c : Config) (hv : c.Valid) (nd : ℕ → ℕ) (pd : ℕ → ℕ → Bool)
    (hlo : c.monthly_order_range.1 ≤ c.monthly_order_range.2) :
    ∀ (k month : ℕ), 1 ≤ month →
      ∀ s : RunState,
        ((month : ℤ) + (k : ℤ)) - 1 + c.repayment_tail ≤ (s.total_cashflow.length : ℤ) →
        ∃ s', c.simLoop nd pd month k s = some s' ∧
          s'.total_cashflow.length = s.total_cashflow.length ∧
          s'.monthly_investments.length = s.monthly_investments.length + k ∧
          s'.monthly_order_count.length = s.monthly_order_count.length + k := by
  intro k
  induction k with
  | zero => exact fun month hm s hL => ⟨s, rfl, rfl, rfl, rfl⟩
  | succ k ih =>
    intro month hm s hL
    have hL1 : (month : ℤ) + c.repayment_tail ≤ (s.total_cashflow.length : ℤ) := by
      push_cast at hL
      omega
    obtain ⟨s1, hstep, hlen1, hinv1, hcnt1⟩ := monthStep_spec c hv nd pd month hm s hlo hL1
    obtain ⟨s', hloop, hlen2, hinv2, hcnt2⟩ :=
      ih (month + 1) (by omega) s1 (by rw [hlen1]; push_cast at hL ⊢; omega)
    exact ⟨s', by simp only [Config.simLoop, hstep, hloop], by rw [hlen2, hlen1],
      by rw [hinv2, hinv1]; omega, by rw [hcnt2, hcnt1]; omega⟩

/-- `simulate()` on a domain-valid configuration with a non-inverted order
range succeeds for every draw stream, sets `total_cashflow` to the
`max_months` horizon, and appends `months` entries to the per-month series. -/
lemma simulate_spec (c : Config) (hv : c.Valid) (nd : ℕ → ℕ) (pd : ℕ → ℕ → Bool)
    (s : RunState) (hm : 0 ≤ c.months)
    (hlo : c.monthly_order_range.1 ≤ c.monthly_order_range.2) :
    ∃ s', c.simulate nd pd s = some s' ∧
      (s'.total_cashflow.length : ℤ) = c.max_months ∧
      s'.monthly_investments.length = s.monthly_investments.length + c.months.toNat ∧
      s'.monthly_order_count.length = s.monthly_order_count.length + c.months.toNat := by
  have htail := hv.tail_pos
  have hL : ((1 : ℤ) + (c.months.toNat : ℤ)) - 1 + c.repayment_tail
      ≤ ((List.replicate c.max_months.toNat (0 : ℚ)).length : ℤ) := by
    rw [List.length_replicate]
    simp only [Config.max_months] at *
    omega
  obtain ⟨s', hloop, hlen, hinv, hcnt⟩ :=
    simLoop_spec c hv nd pd hlo c.months.toNat 1 le_rfl
      { s with total_cashflow := List.replicate c.max_months.toNat 0 } hL
  refine ⟨s', hloop, ?_, hinv, hcnt⟩
  rw [hlen]
  simp only [List.length_replicate, Config.max_months]
  omega

/-- A constant order-count draw stream. -/
def drawsConst (k : ℕ) : ℕ → ℕ := fun _ => k

/-- A product draw stream that always selects product 1. -/
def productOne : ℕ → ℕ → Bool := fun _ _ => true

/-- The configuration built from `app.py`'s default constructor arguments. -/
def defaultConfig : Config :=
  ⟨12, 5000, 3/10, 9, 2, 2/5, 12, 3, 1/2, 0, 0, (19, 20), 1, 1/5⟩

/-- C2: for every configuration with `months ≥ 1`,
`0 ≤ first_payment_terms_i < repayment_period_i` for both products, and a
non-inverted order range, `simulate()` returns (for every draw stream) with
`len(total_cashflow) = months + max(repayment_period1 - first_payment_terms1,
repayment_period2 - first_payment_terms2)`; the success of the run (`some`)
is exactly the statement that the accumulation loop never writes outside
indices `0 .. len(total_cashflow) - 1`. -/
theorem C2_horizon_invariant (c : Config) (nd : ℕ → ℕ) (pd : ℕ → ℕ → Bool)
    (hm : 1 ≤ c.months) (hv : c.Valid)
    (hlo : c.monthly_order_range.1 ≤ c.monthly_order_range.2) :
    ∃ s', c.simulate nd pd RunState.init = some s' ∧
      (s'.total_cashflow.length : ℤ) =
        c.months + max (c.repayment_period1 - c.first_payment_terms1)
          (c.repayment_period2 - c.first_payment_terms2) := by
  obtain ⟨s', h1, h2, _⟩ := simulate_spec c hv nd pd RunState.init (by omega) hlo
  exact ⟨s', h1, by simpa [Config.max_months, Config.repayment_tail] using h2⟩

/-- Witness for C2 at the default configuration with constant draws. -/
theorem C2_horizon_invariant_witness :
    ∃ s', defaultConfig.simulate (drawsConst 19) productOne RunState.init = some s' ∧
      (s'.total_cashflow.length : ℤ) =
        defaultConfig.months +
          max (defaultConfig.repayment_period1 - defaultConfig.first_payment_terms1)
            (defaultConfig.repayment_period2 - defaultConfig.first_payment_terms2) :=
  C2_horizon_invariant defaultConfig (drawsConst 19) productOne
    (by decide) (by decide) (by decide)

/-- C10: `simulate()` is not idempotent-safe: running it a second time on the
state left by a first run re-appends to the accumulated per-month series, so
`monthly_investments` and `monthly_order_count` end with length `2 * months`,
different from the length `months` a single fresh run leaves. -/
theorem C10_simulate_reappends (c : Config) (nd1 nd2 : ℕ → ℕ) (pd1 pd2 : ℕ → ℕ → Bool)
    (hm : 1 ≤ c.months) (hv : c.Valid)
    (hlo : c.monthly_order_range.1 ≤ c.monthly_order_range.2) :
    ∃ st1 st2, c.simulate nd1 pd1 RunState.init = some st1 ∧
      c.simulate nd2 pd2 st1 = some st2 ∧
      st2.monthly_investments.length = 2 * c.months.toNat ∧
      st2.monthly_order_count.length = 2 * c.months.toNat ∧
      st1.monthly_investments.length = c.months.toNat ∧
      st2.monthly_investments.length ≠ st1.monthly_investments.length := by
  obtain ⟨st1, h1, _, hi1, hc1⟩ := simulate_spec c hv nd1 pd1 RunState.init (by omega) hlo
  obtain ⟨st2, h2, _, hi2, hc2⟩ := simulate_spec c hv nd2 pd2 st1 (by omega) hlo
  simp only [RunState.init, List.length_nil, Nat.zero_add] at hi1 hc1
  refine ⟨st1, st2, h1, h2, ?_, ?_, hi1, ?_⟩
  · omega
  · omega
  · omega

/-- Witness for C10 at the default configuration. -/
theorem C10_simulate_reappends_witness :
    ∃ st1 st2,
      defaultConfig.simulate (drawsConst 19) productOne RunState.init = some st1 ∧
      defaultConfig.simulate (drawsConst 20) productOne st1 = some st2 ∧
      st2.monthly_investments.length = 2 * (defaultConfig.months).toNat ∧
      st2.monthly_order_count.length = 2 * (defaultConfig.months).toNat ∧
      st1.monthly_investments.length = (defaultConfig.months).toNat ∧
      st2.monthly_investments.length ≠ st1.monthly_investments.length :=
  C10_simulate_reappends defaultConfig (drawsConst 19) (drawsConst 20) productOne productOne
    (by decide) (by decide) (by decide)

lemma pySub_zeros : ∀ (L M : ℕ),
    pySub (List.replicate L 0) (List.replicate M 0) = List.replicate L (0 : ℚ) := by
  intro L
  induction L with
  | zero => intro M; cases M <;> rfl
  | succ L ih =>
    intro M
    cases M with
    | zero =>
      simpa [List.replicate_succ, pySub] using ih 0
    | succ M =>
      simpa [List.replicate_succ, pySub] using ih M

lemma cumAux_replicate_zero (a : ℚ) : ∀ L, cumAux a (List.replicate L 0) = List.replicate L a := by
  intro L
  induction L with
  | zero => rfl
  | succ L ih => simp [List.replicate_succ, cumAux, ih]

lemma foldl_min_zeros : ∀ L, (List.replicate L (0 : ℚ)).foldl min 0 = 0 := by
  intro L
  induction L with
  | zero => rfl
  | succ L ih => simp [List.replicate_succ, List.foldl_cons, min_self, ih]

/-- The last entry of a running-sum list is the starting value plus the sum. -/
lemma cumAux_getLast (a : ℚ) (l : List ℚ) (h : l ≠ []) :
    (cumAux a l).getLast? = some (a + l.sum) := by
  induction l generalizing a with
  | nil => exact absurd rfl h
  | cons x xs ih =>
    cases xs with
    | nil => simp [cumAux]
    | cons y ys =>
      rw [show cumAux a (x :: y :: ys) = (a + x) :: cumAux (a + x) (y :: ys) from rfl,
        show cumAux (a + x) (y :: ys) = (a + x + y) :: cumAux (a + x + y) ys from rfl,
        List.getLast?_cons_cons,
        show (a + x + y) :: cumAux (a + x + y) ys = cumAux (a + x) (y :: ys) from rfl,
        ih (a + x) (by simp)]
      simp only [List.sum_cons]
      ring_nf

/-- With a degenerate `(0, 0)` order range and all-zero draws, the month loop
only appends zeros to the per-month series. -/
lemma simLoop_zero_orders (c : Config) (nd : ℕ → ℕ) (pd : ℕ → ℕ → Bool)
    (hrange : c.monthly_order_range = (0, 0)) (hnd : ∀ m, nd m = 0) :
    ∀ (k month : ℕ) (s : RunState),
      c.simLoop nd pd month k s = some
        { s with
            monthly_investments := s.monthly_investments ++ List.replicate k 0,
            monthly_order_count := s.monthly_order_count ++ List.replicate k 0 } := by
  intro k
  induction k with
  | zero =>
    intro month s
    simp [Config.simLoop]
  | succ k ih =>
    intro month s
    have hstep : c.monthStep nd pd month s = some
        { s with
            monthly_investments := s.monthly_investments ++ [0],
            monthly_order_count := s.monthly_order_count ++ [0] } := by
      simp [Config.monthStep, hrange, hnd month, Config.orderLoop]
    simp only [Config.simLoop, hstep, ih (month + 1)]
    simp [List.replicate_succ, List.append_assoc]

/-- `simulate()` with a `(0, 0)` order range: all-zero series of the expected
lengths. -/
lemma simulate_zero_orders (c : Config) (nd : ℕ → ℕ) (pd : ℕ → ℕ → Bool)
    (hrange : c.monthly_order_range = (0, 0)) (hnd : ∀ m, nd m = 0) :
    c.simulate nd pd RunState.init = some
      ⟨List.replicate c.months.toNat 0, List.replicate c.max_months.toNat 0,
        [], List.replicate c.months.toNat 0⟩ := by
  simp [Config.simulate, simLoop_zero_orders c nd pd hrange hnd, RunState.init]

/-- `simulate()` in either degenerate case — `months = 0` (with any order
range: the month loop never runs, so `random.randint` is never consulted) or
a `(0, 0)` order range drawing 0 orders every month — produces all-zero
series of the expected lengths. -/
lemma simulate_degenerate (c : Config) (nd : ℕ → ℕ) (pd : ℕ → ℕ → Bool)
    (hdeg : c.months = 0 ∨ (c.monthly_order_range = (0, 0) ∧ ∀ m, nd m = 0)) :
    c.simulate nd pd RunState.init = some
      ⟨List.replicate c.months.toNat 0, List.replicate c.max_months.toNat 0,
        [], List.replicate c.months.toNat 0⟩ := by
  rcases hdeg with hm0 | ⟨hrange, hnd⟩
  · unfold Config.simulate
    rw [show c.months.toNat = 0 from by omega]
    simp [Config.simLoop, RunState.init]
  · exact simulate_zero_orders c nd pd hrange hnd

/-- C3 (amended): with `months = 0` (any order range) or a `(0, 0)` monthly
order range, on a domain-valid configuration `simulate()` returns with every
derived series all-zero, `get_actual_investment() = 0` and no faulting
accessor — except that `get_breakeven_month()` reports breakeven at month 1
(the all-zero cumulative cash flow satisfies `>= 0` at the first period, it
is not reported as absent), and with `months = 0`
`get_cumulative_investment()` raises an index error on `cum[-1]` of the
empty investment list. -/
theorem C3_amended_degenerate (c : Config) (nd : ℕ → ℕ) (pd : ℕ → ℕ → Bool)
    (hv : c.Valid) (hm : 0 ≤ c.months)
    (hdeg : c.months = 0 ∨ (c.monthly_order_range = (0, 0) ∧ ∀ m, nd m = 0)) :
    ∃ st, c.simulate nd pd RunState.init = some st ∧
      st.get_net_cashflow = List.replicate c.max_months.toNat 0 ∧
      st.get_cumulative_cashflow = List.replicate c.max_months.toNat 0 ∧
      st.get_actual_investment = some 0 ∧
      st.get_breakeven_month = some 1 ∧
      (1 ≤ c.months → st.get_cumulative_investment =
        some (List.replicate c.max_months.toNat 0)) ∧
      (c.months = 0 → st.get_cumulative_investment = none) := by
  have htail := hv.tail_pos
  have hL1 : 1 ≤ c.max_months.toNat := by
    simp only [Config.max_months]
    omega
  obtain ⟨K, hK⟩ : ∃ K, c.max_months.toNat = K + 1 := ⟨c.max_months.toNat - 1, by omega⟩
  have hnet : pySub (List.replicate c.max_months.toNat (0 : ℚ))
      (List.replicate c.months.toNat 0) = List.replicate c.max_months.toNat 0 :=
    pySub_zeros _ _
  refine ⟨_, simulate_degenerate c nd pd hdeg, ?_, ?_, ?_, ?_, ?_, ?_⟩
  · exact hnet
  · simp only [RunState.get_cumulative_cashflow, RunState.get_net_cashflow, hnet, cumsum,
      cumAux_replicate_zero]
  · simp only [RunState.get_actual_investment, RunState.get_cumulative_cashflow,
      RunState.get_net_cashflow]
    rw [hnet, cumsum, cumAux_replicate_zero, hK, List.replicate_succ]
    simp only [pyMin, Option.map_some', foldl_min_zeros]
    simp
  · simp only [RunState.get_breakeven_month, RunState.get_cumulative_cashflow,
      RunState.get_net_cashflow]
    rw [hnet, cumsum, cumAux_replicate_zero, hK, List.replicate_succ]
    simp [findPos]
  · intro hm1
    have hle : c.months.toNat ≤ c.max_months.toNat := by
      simp only [Config.max_months]
      omega
    have hmz : ¬ c.months.toNat = 0 := by omega
    simp only [RunState.get_cumulative_investment, cumsum, cumAux_replicate_zero,
      List.getLast?_replicate, List.length_replicate, if_neg hmz]
    rw [← List.replicate_add]
    simp only [Option.some.injEq]
    congr 1
    omega
  · intro hm0
    have : c.months.toNat = 0 := by omega
    simp [RunState.get_cumulative_investment, this, cumsum, cumAux]

/-- A one-month configuration whose order range permits 0 orders. -/
def cfgC3 : Config :=
  ⟨1, 5000, 3/10, 9, 2, 2/5, 12, 3, 1/2, 0, 0, (0, 0), 1, 1/5⟩

/-- C3 counterexample: with `months = 1` and order range `(0, 0)` every series
is all-zero, yet `get_breakeven_month()` returns month 1 (the all-zero
cumulative cash flow is `>= 0` at period 1), not the absent/None the claim
requires. -/
theorem C3_counterexample :
    (cfgC3.simulate (drawsConst 0) productOne RunState.init).map
        (fun st => st.get_breakeven_month) = some (some 1) ∧
    ¬ (cfgC3.simulate (drawsConst 0) productOne RunState.init).map
        (fun st => st.get_breakeven_month) = some (none : Option ℕ) := by
  have h : (cfgC3.simulate (drawsConst 0) productOne RunState.init).map
      (fun st => st.get_breakeven_month) = some (some 1) := by
    rw [simulate_zero_orders cfgC3 (drawsConst 0) productOne rfl (fun _ => rfl)]
    have h1 : cfgC3.months.toNat = 1 := rfl
    have hL : cfgC3.max_months.toNat = 10 := by decide
    simp only [Option.map_some', RunState.get_breakeven_month,
      RunState.get_cumulative_cashflow, RunState.get_net_cashflow, h1, hL]
    rw [pySub_zeros, cumsum, cumAux_replicate_zero]
    simp [findPos, List.replicate_succ]
  exact ⟨h, by rw [h]; simp⟩

/-- A zero-month configuration whose order range is the default `(19, 20)`:
the `months = 0` degenerate case with a non-degenerate range. -/
def cfgC3zero : Config :=
  ⟨0, 5000, 3/10, 9, 2, 2/5, 12, 3, 1/2, 0, 0, (19, 20), 1, 1/5⟩

/-- Witness for C3 (amended) at the zero-month configuration with the
default `(19, 20)` order range: the month loop never runs, the series are
all-zero, breakeven is reported at month 1, and
`get_cumulative_investment()` faults. -/
theorem C3_amended_degenerate_witness :
    ∃ st, cfgC3zero.simulate (drawsConst 19) productOne RunState.init = some st ∧
      st.get_net_cashflow = List.replicate cfgC3zero.max_months.toNat 0 ∧
      st.get_cumulative_cashflow = List.replicate cfgC3zero.max_months.toNat 0 ∧
      st.get_actual_investment = some 0 ∧
      st.get_breakeven_month = some 1 ∧
      (1 ≤ cfgC3zero.months → st.get_cumulative_investment =
        some (List.replicate cfgC3zero.max_months.toNat 0)) ∧
      (cfgC3zero.months = 0 → st.get_cumulative_investment = none) :=
  C3_amended_degenerate cfgC3zero (drawsConst 19) productOne
    (by decide) (by decide) (Or.inl rfl)

/-- An out-of-domain order (`first_payment_terms > repayment_period`) makes
`get_monthly_cashflow` raise: the schedule list is empty and
`repayments[0] = ...` faults (or `repayment_period == 0` divides by zero). -/
lemma cashflow_none_of_bad_terms (o : PhoneOrder)
    (hbad : o.repayment_period < o.first_payment_terms) (hd : o.default = false) :
    o.get_monthly_cashflow = none := by
  unfold PhoneOrder.get_monthly_cashflow PhoneOrder.monthly_payment
  by_cases h : o.repayment_period = 0
  · simp [h]
  · have hn : (o.repayment_period - o.first_payment_terms + 1).toNat = 0 := by omega
    simp [h, hd, hn]

/-- A configuration with `first_payment_terms1 > repayment_period1` is not
rejected up front: `simulate()` starts running and aborts mid-run with an
index fault while generating the first product-1 order's schedule. -/
lemma simulate_fault_on_bad_terms (c : Config) (nd : ℕ → ℕ) (pd : ℕ → ℕ → Bool)
    (hbad : c.repayment_period1 < c.first_payment_terms1) (hm : 1 ≤ c.months)
    (hlo : c.monthly_order_range.1 ≤ c.monthly_order_range.2)
    (hn : 1 ≤ nd 1) (hp : pd 1 0 = true) (s : RunState) :
    c.simulate nd pd s = none := by
  have hcf : (c.madeOrder 1 true).get_monthly_cashflow = none := by
    apply cashflow_none_of_bad_terms _ _ rfl
    simpa [Config.madeOrder, Config.sel_period, Config.sel_terms] using hbad
  have hstep : ∀ s' : RunState, c.orderStep 1 true s' = none := fun s' => by
    simp only [Config.orderStep, hcf]
  obtain ⟨m, hm'⟩ : ∃ m, nd 1 = m + 1 := ⟨nd 1 - 1, by omega⟩
  obtain ⟨k, hk⟩ : ∃ k, c.months.toNat = k + 1 := ⟨c.months.toNat - 1, by omega⟩
  have hms : ∀ s' : RunState, c.monthStep nd pd 1 s' = none := fun s' => by
    simp only [Config.monthStep, if_pos hlo, hm', Config.orderLoop, hp, Nat.cast_one, hstep]
  unfold Config.simulate
  rw [hk]
  simp only [Config.simLoop, hms]

/-- A one-month configuration with `first_payment_terms1 = 11 >
repayment_period1 = 9` (out of the documented domain). -/
def cfgC4terms : Config :=
  ⟨1, 5000, 3/10, 9, 11, 2/5, 12, 3, 1/2, 0, 0, (1, 1), 1, 1/5⟩

/-- A one-month configuration with `bad_debt_rate = 2`, outside `[0, 1]`. -/
def cfgC4ratio : Config :=
  ⟨1, 5000, 3/10, 9, 2, 2/5, 12, 3, 1/2, 0, 2, (1, 1), 1, 1/5⟩

/-- C4 counterexample: no configuration error is ever raised before
simulation.  The out-of-domain `first_payment_terms1 > repayment_period1`
configuration is accepted by the constructor and discovered mid-run as an
index fault inside `simulate()` (the run returns an exception, `none`),
while the out-of-domain `bad_debt_rate = 2` configuration is accepted and
runs to completion with no error at all. -/
theorem C4_counterexample :
    cfgC4terms.simulate (drawsConst 1) productOne RunState.init = none ∧
    (cfgC4ratio.simulate (drawsConst 1) productOne RunState.init).isSome = true := by
  constructor
  · exact simulate_fault_on_bad_terms cfgC4terms (drawsConst 1) productOne
      (by decide) (by decide) (by decide) (by decide) rfl RunState.init
  · obtain ⟨s', h, -, -, -⟩ := simulate_spec cfgC4ratio (by decide) (drawsConst 1)
      productOne RunState.init (by decide) (by decide)
    rw [h]
    rfl

/-- C4 (amended): the engine performs no domain validation.  The constructor
accepts every parameter tuple; a configuration with `first_payment_terms1 >
repayment_period1` is discovered mid-run via an index fault while the first
order's schedule is generated (for any draw stream producing at least one
product-1 order in month 1), and other out-of-domain parameters (such as a
bad-debt rate outside `[0, 1]`) run to completion silently; valid
configurations never fault (see C2). -/
theorem C4_amended_no_validation (c : Config) (nd : ℕ → ℕ) (pd : ℕ → ℕ → Bool)
    (hbad : c.repayment_period1 < c.first_payment_terms1) (hm : 1 ≤ c.months)
    (hlo : c.monthly_order_range.1 ≤ c.monthly_order_range.2)
    (hn : 1 ≤ nd 1) (hp : pd 1 0 = true) :
    c.simulate nd pd RunState.init = none :=
  simulate_fault_on_bad_terms c nd pd hbad hm hlo hn hp RunState.init

/-- Witness for C4 (amended) at a concrete out-of-domain configuration. -/
theorem C4_amended_no_validation_witness :
    (Config.mk 2 4000 (3/10) 8 10 (2/5) 12 3 (1/2) 0 0 (2, 3) 1 (1/5)).simulate
      (drawsConst 2) productOne RunState.init = none :=
  C4_amended_no_validation _ (drawsConst 2) productOne
    (by decide) (by decide) (by decide) (by decide) rfl

lemma pySub_nil : ∀ t : List ℚ, pySub t [] = t := by
  intro t
  induction t with
  | nil => rfl
  | cons x xs ih => simp [pySub, ih]

lemma addInto_zeros (l : List ℚ) : ∀ n, l.length ≤ n →
    addInto (List.replicate n 0) l = some (l ++ List.replicate (n - l.length) 0) := by
  induction l with
  | nil => intro n _; simp [addInto_nil]
  | cons x xs ih =>
    intro n h
    cases n with
    | zero => simp at h
    | succ n =>
      simp only [List.replicate_succ, addInto, ih n (by simpa using h)]
      simp [List.cons_append]

/-- A running sum of nonnegative increments never goes below its start. -/
lemma cumAux_min (b : ℚ) (hb : 0 ≤ b) : ∀ (d : ℕ) (acc x : ℚ), x ≤ acc →
    (cumAux acc (List.replicate d b)).foldl min x = x := by
  intro d
  induction d with
  | zero => intro acc x _; rfl
  | succ d ih =>
    intro acc x hx
    simp only [List.replicate_succ, cumAux, List.foldl_cons]
    rw [min_eq_left (by linarith)]
    exact ih (acc + b) x (by linarith)

/-- One-order, one-month run with neutral adjustments
(`bad_debt_rate = service_fee_rate = prepayment_rate = 0`,
`investment_ratio = 1`, identical products): the exact final cumulative value
and the exact minimum of the cumulative series. -/
lemma one_order_run (c : Config) (nd : ℕ → ℕ) (pd : ℕ → ℕ → Bool)
    (hm1 : c.months = 1) (hrange : c.monthly_order_range = (1, 1))
    (hbdr : c.bad_debt_rate = 0) (hsfr : c.service_fee_rate = 0)
    (hprep : c.prepayment_rate = 0) (hir : c.investment_ratio = 1)
    (hlr2 : c.lease_rate2 = c.lease_rate1)
    (hrp2 : c.repayment_period2 = c.repayment_period1)
    (hfpt2 : c.first_payment_terms2 = c.first_payment_terms1)
    (hc : 0 < c.phone_cost) (hlr : 0 ≤ c.lease_rate1)
    (hf : 0 ≤ c.first_payment_terms1)
    (hfr : c.first_payment_terms1 < c.repayment_period1) (hnd : nd 1 = 1) :
    ∃ st, c.simulate nd pd RunState.init = some st ∧
      st.get_cumulative_cashflow.getLast? = some (c.phone_cost * c.lease_rate1) ∧
      pyMin st.get_cumulative_cashflow = some
        (c.phone_cost * (1 + c.lease_rate1) / (c.repayment_period1 : ℚ) *
          (c.first_payment_terms1 : ℚ) - c.phone_cost) := by
  have hsel_r : ∀ b, c.sel_rate b = c.lease_rate1 := fun b => by
    cases b <;> simp [Config.sel_rate, hlr2]
  have hsel_p : ∀ b, c.sel_period b = c.repayment_period1 := fun b => by
    cases b <;> simp [Config.sel_period, hrp2]
  have hsel_t : ∀ b, c.sel_terms b = c.first_payment_terms1 := fun b => by
    cases b <;> simp [Config.sel_terms, hfpt2]
  have hrpQ : (c.repayment_period1 : ℚ) ≠ 0 := by
    exact_mod_cast (by omega : c.repayment_period1 ≠ 0)
  have hrpQpos : (0 : ℚ) < (c.repayment_period1 : ℚ) := by
    exact_mod_cast (by omega : (0 : ℤ) < c.repayment_period1)
  have hmp0 : 0 ≤ c.phone_cost * (1 + c.lease_rate1) / (c.repayment_period1 : ℚ) :=
    div_nonneg (mul_nonneg hc.le (by linarith)) hrpQpos.le
  have hdc : (((c.repayment_period1 - c.first_payment_terms1).toNat : ℕ) : ℚ)
      = (c.repayment_period1 : ℚ) - (c.first_payment_terms1 : ℚ) := by
    have h := Int.toNat_of_nonneg (by omega : (0:ℤ) ≤
      c.repayment_period1 - c.first_payment_terms1)
    exact_mod_cast congrArg (fun z : ℤ => (z : ℚ)) h
  have ht0 : ∀ b, 0 ≤ (c.madeOrder 1 b).first_payment_terms := fun b => by
    show 0 ≤ c.sel_terms b
    rw [hsel_t]
    exact hf
  have ht1 : ∀ b, (c.madeOrder 1 b).first_payment_terms <
      (c.madeOrder 1 b).repayment_period := fun b => by
    show c.sel_terms b < c.sel_period b
    rw [hsel_t, hsel_p]
    exact hfr
  have hcf : ∀ b, (c.madeOrder 1 b).get_monthly_cashflow = some
      (c.phone_cost * (1 + c.lease_rate1) / (c.repayment_period1 : ℚ) *
          (c.first_payment_terms1 : ℚ) ::
        List.replicate (c.repayment_period1 - c.first_payment_terms1).toNat
          (c.phone_cost * (1 + c.lease_rate1) / (c.repayment_period1 : ℚ))) := by
    intro b
    rw [cashflow_eq _ (ht0 b) (ht1 b) rfl]
    simp only [Config.madeOrder, PhoneOrder.total_repayment, hsel_r, hsel_p, hsel_t, hprep]
    rw [show c.phone_cost * (1 + ((0:ℚ) * (c.lease_rate1 / 2) +
      (1 - 0) * c.lease_rate1)) = c.phone_cost * (1 + c.lease_rate1) from by ring]
    norm_num [pyZeros]
  have hmapid : ∀ l : List ℚ,
      l.map (fun x => x * (1 - c.bad_debt_rate) * c.investment_ratio) = l := by
    intro l
    rw [show (fun x : ℚ => x * (1 - c.bad_debt_rate) * c.investment_ratio)
      = fun x => x from by funext x; rw [hbdr, hir]; ring]
    exact List.map_id' l
  have hL : c.max_months.toNat = (c.repayment_period1 - c.first_payment_terms1).toNat + 1 := by
    have : c.max_months = 1 + (c.repayment_period1 - c.first_payment_terms1) := by
      simp [Config.max_months, Config.repayment_tail, hm1, hrp2, hfpt2]
    omega
  have hadd : addInto (List.replicate c.max_months.toNat 0)
      ((c.phone_cost * (1 + c.lease_rate1) / (c.repayment_period1 : ℚ) *
          (c.first_payment_terms1 : ℚ) ::
        List.replicate (c.repayment_period1 - c.first_payment_terms1).toNat
          (c.phone_cost * (1 + c.lease_rate1) / (c.repayment_period1 : ℚ))).map
        (fun x => x * (1 - c.bad_debt_rate) * c.investment_ratio)) = some
      (c.phone_cost * (1 + c.lease_rate1) / (c.repayment_period1 : ℚ) *
          (c.first_payment_terms1 : ℚ) ::
        List.replicate (c.repayment_period1 - c.first_payment_terms1).toNat
          (c.phone_cost * (1 + c.lease_rate1) / (c.repayment_period1 : ℚ))) := by
    rw [hmapid, hL, addInto_zeros _ _ (by simp)]
    simp
  have hinv : c.order_investment (pd 1 0) = c.phone_cost := by
    simp [Config.order_investment, hsel_r, hsfr, hir]
  have hrun : c.simulate nd pd RunState.init = some
      ⟨[c.phone_cost],
        c.phone_cost * (1 + c.lease_rate1) / (c.repayment_period1 : ℚ) *
            (c.first_payment_terms1 : ℚ) ::
          List.replicate (c.repayment_period1 - c.first_payment_terms1).toNat
            (c.phone_cost * (1 + c.lease_rate1) / (c.repayment_period1 : ℚ)),
        [c.madeOrder 1 (pd 1 0)], [1]⟩ := by
    unfold Config.simulate
    rw [show c.months.toNat = 1 from by omega]
    simp only [Config.simLoop, Config.monthStep, hrange]
    rw [if_pos (le_refl (1 : ℤ))]
    simp only [hnd, Config.orderLoop, Nat.cast_one, RunState.init]
    rw [orderStep_eq_some c 1 (pd 1 0) _ _ _ (hcf (pd 1 0)) hadd]
    simp [hinv]
  refine ⟨_, hrun, ?_, ?_⟩
  · simp only [RunState.get_cumulative_cashflow, RunState.get_net_cashflow]
    rw [show pySub
        (c.phone_cost * (1 + c.lease_rate1) / (c.repayment_period1 : ℚ) *
            (c.first_payment_terms1 : ℚ) ::
          List.replicate (c.repayment_period1 - c.first_payment_terms1).toNat
            (c.phone_cost * (1 + c.lease_rate1) / (c.repayment_period1 : ℚ)))
        [c.phone_cost] =
      (c.phone_cost * (1 + c.lease_rate1) / (c.repayment_period1 : ℚ) *
          (c.first_payment_terms1 : ℚ) - c.phone_cost) ::
        List.replicate (c.repayment_period1 - c.first_payment_terms1).toNat
          (c.phone_cost * (1 + c.lease_rate1) / (c.repayment_period1 : ℚ))
      from by simp [pySub, pySub_nil]]
    rw [cumsum, cumAux_getLast 0 _ (by simp)]
    congr 1
    simp only [List.sum_cons, List.sum_replicate, nsmul_eq_mul, zero_add, hdc]
    field_simp
    ring
  · simp only [RunState.get_cumulative_cashflow, RunState.get_net_cashflow]
    rw [show pySub
        (c.phone_cost * (1 + c.lease_rate1) / (c.repayment_period1 : ℚ) *
            (c.first_payment_terms1 : ℚ) ::
          List.replicate (c.repayment_period1 - c.first_payment_terms1).toNat
            (c.phone_cost * (1 + c.lease_rate1) / (c.repayment_period1 : ℚ)))
        [c.phone_cost] =
      (c.phone_cost * (1 + c.lease_rate1) / (c.repayment_period1 : ℚ) *
          (c.first_payment_terms1 : ℚ) - c.phone_cost) ::
        List.replicate (c.repayment_period1 - c.first_payment_terms1).toNat
          (c.phone_cost * (1 + c.lease_rate1) / (c.repayment_period1 : ℚ))
      from by simp [pySub, pySub_nil]]
    simp only [cumsum, cumAux, pyMin]
    rw [cumAux_min _ hmp0 _ _ _ le_rfl]
    rw [zero_add]

/-- A single-order, single-period configuration with identical products,
`first_payment_terms = 2` and all adjustments neutral. -/
def cfgC6 : Config :=
  ⟨1, 5000, 3/10, 9, 2, 3/10, 9, 2, 1/2, 0, 0, (1, 1), 1, 0⟩

/-- C6 counterexample: in the single-order, single-period simulation with
cost 5000, rate 3/10, 9 periods and 2 first-payment terms, the minimum of the
cumulative net cash-flow series is `-32000/9 ≈ -3555.56` (the origination
month nets `payment*2 - cost`), not `-5000 = -device_cost` as claimed. -/
theorem C6_counterexample :
    (cfgC6.simulate (drawsConst 1) productOne RunState.init).map
        (fun st => pyMin st.get_cumulative_cashflow) = some (some ((-32000 : ℚ)/9)) ∧
    ¬ (cfgC6.simulate (drawsConst 1) productOne RunState.init).map
        (fun st => pyMin st.get_cumulative_cashflow) = some (some (-(5000 : ℚ))) := by
  obtain ⟨st, h1, -, h3⟩ := one_order_run cfgC6 (drawsConst 1) productOne
    rfl rfl rfl rfl rfl rfl rfl rfl rfl
    (by norm_num [cfgC6]) (by norm_num [cfgC6]) (by decide) (by decide) rfl
  have he : (cfgC6.simulate (drawsConst 1) productOne RunState.init).map
      (fun st => pyMin st.get_cumulative_cashflow)
        = some (pyMin st.get_cumulative_cashflow) := by
    rw [h1, Option.map_some']
  constructor
  · rw [he, h3]
    norm_num [cfgC6]
  · rw [he, h3]
    norm_num [cfgC6]

/-- C6 (amended): in a single-order, single-period simulation (`months = 1`,
order range `(1, 1)`, `bad_debt_rate = 0`, `service_fee_rate = 0`,
`prepayment_rate = 0`, `investment_ratio = 1`, identical products), the
cumulative net cash flow at the final period equals
`device_cost * lease_rate`, and the minimum of the cumulative series equals
`per_period_payment * first_payment_terms - device_cost` — which is
`-device_cost` exactly when `first_payment_terms = 0`, not in general. -/
theorem C6_amended_conservation (c : Config) (nd : ℕ → ℕ) (pd : ℕ → ℕ → Bool)
    (hm1 : c.months = 1) (hrange : c.monthly_order_range = (1, 1))
    (hbdr : c.bad_debt_rate = 0) (hsfr : c.service_fee_rate = 0)
    (hprep : c.prepayment_rate = 0) (hir : c.investment_ratio = 1)
    (hlr2 : c.lease_rate2 = c.lease_rate1)
    (hrp2 : c.repayment_period2 = c.repayment_period1)
    (hfpt2 : c.first_payment_terms2 = c.first_payment_terms1)
    (hc : 0 < c.phone_cost) (hlr : 0 ≤ c.lease_rate1)
    (hf : 0 ≤ c.first_payment_terms1)
    (hfr : c.first_payment_terms1 < c.repayment_period1) (hnd : nd 1 = 1) :
    ∃ st, c.simulate nd pd RunState.init = some st ∧
      st.get_cumulative_cashflow.getLast? = some (c.phone_cost * c.lease_rate1) ∧
      pyMin st.get_cumulative_cashflow = some
        (c.phone_cost * (1 + c.lease_rate1) / (c.repayment_period1 : ℚ) *
          (c.first_payment_terms1 : ℚ) - c.phone_cost) :=
  one_order_run c nd pd hm1 hrange hbdr hsfr hprep hir hlr2 hrp2 hfpt2 hc hlr hf hfr hnd

/-- Witness for C6 (amended) at the concrete configuration. -/
theorem C6_amended_conservation_witness :
    ∃ st, cfgC6.simulate (drawsConst 1) productOne RunState.init = some st ∧
      st.get_cumulative_cashflow.getLast? =
        some (cfgC6.phone_cost * cfgC6.lease_rate1) ∧
      pyMin st.get_cumulative_cashflow = some
        (cfgC6.phone_cost * (1 + cfgC6.lease_rate1) / (cfgC6.repayment_period1 : ℚ) *
          (cfgC6.first_payment_terms1 : ℚ) - cfgC6.phone_cost) :=
  C6_amended_conservation cfgC6 (drawsConst 1) productOne
    rfl rfl rfl rfl rfl rfl rfl rfl rfl
    (by norm_num [cfgC6]) (by norm_num [cfgC6]) (by decide) (by decide) rfl

/-- The same configuration with only `bad_debt_rate` replaced. -/
def Config.withBadDebt (c : Config) (b : ℚ) : Config := { c with bad_debt_rate := b }

/-- Pointwise scaling of a cash-flow list. -/
def scaleL (a : ℚ) (l : List ℚ) : List ℚ := l.map (fun x => a * x)

/-- A run state with its `total_cashflow` scaled. -/
def RunState.scaleTC (a : ℚ) (s : RunState) : RunState :=
  { s with total_cashflow := scaleL a s.total_cashflow }

lemma withBadDebt_range (c : Config) (b : ℚ) :
    (c.withBadDebt b).monthly_order_range = c.monthly_order_range := rfl

lemma scaleL_length (a : ℚ) (l : List ℚ) : (scaleL a l).length = l.length :=
  List.length_map _ _

lemma scaleL_sum (a : ℚ) : ∀ l : List ℚ, (scaleL a l).sum = a * l.sum := by
  intro l
  induction l with
  | nil => simp [scaleL]
  | cons x xs ih => simp [scaleL, List.sum_cons, mul_add] at ih ⊢; rw [ih]

lemma addInto_scale (a : ℚ) : ∀ (v u : List ℚ),
    addInto (scaleL a u) (scaleL a v) = (addInto u v).map (scaleL a) := by
  intro v
  induction v with
  | nil => intro u; simp [scaleL, addInto_nil]
  | cons x xs ih =>
    intro u
    cases u with
    | nil => simp [scaleL, addInto]
    | cons y ys =>
      simp only [scaleL, List.map_cons, addInto]
      rw [show List.map (fun x => a * x) ys = scaleL a ys from rfl,
        show List.map (fun x => a * x) xs = scaleL a xs from rfl, ih ys]
      cases h : addInto ys xs with
      | none => simp [h]
      | some r => simp [h, scaleL, mul_add]

lemma orderStep_none_cf (c : Config) (month : ℤ) (is_p1 : Bool) (s : RunState)
    (hcf : (c.madeOrder month is_p1).get_monthly_cashflow = none) :
    c.orderStep month is_p1 s = none := by
  simp only [Config.orderStep, hcf]

lemma orderStep_none_add (c : Config) (month : ℤ) (is_p1 : Bool) (s : RunState)
    (l : List ℚ) (hcf : (c.madeOrder month is_p1).get_monthly_cashflow = some l)
    (hadd : addInto s.total_cashflow
      (l.map fun x => x * (1 - c.bad_debt_rate) * c.investment_ratio) = none) :
    c.orderStep month is_p1 s = none := by
  simp only [Config.orderStep, hcf, hadd]

/-- One order step at bad-debt rate `b` is the bad-debt-0 step with the
accumulated cash flow scaled by `1 - b`: the rate enters only through the
per-entry factor `(1 - bad_debt_rate)`. -/
lemma orderStep_scale (c : Config) (b : ℚ) (month : ℤ) (is_p1 : Bool) (s : RunState) :
    (c.withBadDebt b).orderStep month is_p1 (s.scaleTC (1 - b)) =
      ((c.withBadDebt 0).orderStep month is_p1 s).map
        (fun p => (p.1.scaleTC (1 - b), p.2)) := by
  cases hcf : ((c.withBadDebt 0).madeOrder month is_p1).get_monthly_cashflow with
  | none =>
    rw [orderStep_none_cf (c.withBadDebt b) month is_p1 (s.scaleTC (1 - b)) hcf,
      orderStep_none_cf (c.withBadDebt 0) month is_p1 s hcf]
    rfl
  | some cf =>
    have hmeq : cf.map (fun x : ℚ => x * (1 - b) * c.investment_ratio)
        = scaleL (1 - b) (cf.map (fun x : ℚ => x * (1 - 0) * c.investment_ratio)) := by
      rw [scaleL, List.map_map]
      rw [show ((fun x : ℚ => (1 - b) * x) ∘ (fun x : ℚ => x * (1 - 0) * c.investment_ratio))
        = fun x : ℚ => x * (1 - b) * c.investment_ratio from by
          funext x
          simp only [Function.comp]
          ring]
    cases hadd : addInto s.total_cashflow
        (cf.map (fun x : ℚ => x * (1 - 0) * c.investment_ratio)) with
    | none =>
      have haddb : addInto (scaleL (1 - b) s.total_cashflow)
          (cf.map (fun x : ℚ => x * (1 - b) * c.investment_ratio)) = none := by
        rw [hmeq, addInto_scale, hadd]
        rfl
      rw [orderStep_none_add (c.withBadDebt b) month is_p1 (s.scaleTC (1 - b)) cf hcf haddb,
        orderStep_none_add (c.withBadDebt 0) month is_p1 s cf hcf hadd]
      rfl
    | some tc =>
      have haddb : addInto (scaleL (1 - b) s.total_cashflow)
          (cf.map (fun x : ℚ => x * (1 - b) * c.investment_ratio))
            = some (scaleL (1 - b) tc) := by
        rw [hmeq, addInto_scale, hadd]
        rfl
      rw [orderStep_eq_some (c.withBadDebt b) month is_p1 (s.scaleTC (1 - b)) cf
          (scaleL (1 - b) tc) hcf haddb,
        orderStep_eq_some (c.withBadDebt 0) month is_p1 s cf tc hcf hadd]
      rfl

lemma orderLoop_scale (c : Config) (b : ℚ) (month : ℤ) (pdm : ℕ → Bool) :
    ∀ (n j : ℕ) (s : RunState) (acc : ℚ),
      (c.withBadDebt b).orderLoop month pdm j n (s.scaleTC (1 - b)) acc =
        ((c.withBadDebt 0).orderLoop month pdm j n s acc).map
          (fun p => (p.1.scaleTC (1 - b), p.2)) := by
  intro n
  induction n with
  | zero => intro j s acc; rfl
  | succ n ih =>
    intro j s acc
    simp only [Config.orderLoop, orderStep_scale]
    cases h : (c.withBadDebt 0).orderStep month (pdm j) s with
    | none => rfl
    | some p =>
      obtain ⟨s1, inv⟩ := p
      exact ih (j + 1) s1 (acc + inv)

lemma monthStep_scale (c : Config) (b : ℚ) (nd : ℕ → ℕ) (pd : ℕ → ℕ → Bool)
    (month : ℕ) (s : RunState) :
    (c.withBadDebt b).monthStep nd pd month (s.scaleTC (1 - b)) =
      ((c.withBadDebt 0).monthStep nd pd month s).map (RunState.scaleTC (1 - b)) := by
  simp only [Config.monthStep, withBadDebt_range]
  by_cases hlo : c.monthly_order_range.1 ≤ c.monthly_order_range.2
  · rw [if_pos hlo, if_pos hlo]
    rw [show ({ s.scaleTC (1 - b) with
          monthly_order_count := (s.scaleTC (1 - b)).monthly_order_count ++ [nd month] } : RunState)
        = ({ s with monthly_order_count := s.monthly_order_count ++ [nd month] }
            : RunState).scaleTC (1 - b) from rfl]
    rw [orderLoop_scale]
    cases h : (c.withBadDebt 0).orderLoop (month : ℤ) (pd month) 0 (nd month)
        { s with monthly_order_count := s.monthly_order_count ++ [nd month] } 0 with
    | none => rfl
    | some p =>
      obtain ⟨s1, inv⟩ := p
      rfl
  · rw [if_neg hlo, if_neg hlo]
    rfl

lemma simLoop_scale (c : Config) (b : ℚ) (nd : ℕ → ℕ) (pd : ℕ → ℕ → Bool) :
    ∀ (k month : ℕ) (s : RunState),
      (c.withBadDebt b).simLoop nd pd month k (s.scaleTC (1 - b)) =
        ((c.withBadDebt 0).simLoop nd pd month k s).map (RunState.scaleTC (1 - b)) := by
  intro k
  induction k with
  | zero => intro month s; rfl
  | succ k ih =>
    intro month s
    simp only [Config.simLoop, monthStep_scale]
    cases h : (c.withBadDebt 0).monthStep nd pd month s with
    | none => rfl
    | some s1 => exact ih (month + 1) s1

/-- `simulate()` at bad-debt rate `b` equals the bad-debt-0 run with
`total_cashflow` scaled by `1 - b`; all other run state is identical. -/
lemma simulate_scale (c : Config) (b : ℚ) (nd : ℕ → ℕ) (pd : ℕ → ℕ → Bool)
    (s : RunState) :
    (c.withBadDebt b).simulate nd pd s =
      ((c.withBadDebt 0).simulate nd pd s).map (RunState.scaleTC (1 - b)) := by
  unfold Config.simulate
  have hmm : (c.withBadDebt b).max_months = (c.withBadDebt 0).max_months := rfl
  have hz : ({ s with total_cashflow :=
        List.replicate (c.withBadDebt b).max_months.toNat 0 } : RunState)
      = ({ s with total_cashflow :=
        List.replicate (c.withBadDebt 0).max_months.toNat 0 } : RunState).scaleTC (1 - b) := by
    rw [hmm]
    simp [RunState.scaleTC, scaleL, List.map_replicate]
  rw [hz]
  exact simLoop_scale c b nd pd (c.withBadDebt 0).months.toNat 1 _

lemma pySub_length : ∀ t v : List ℚ, (pySub t v).length = t.length := by
  intro t
  induction t with
  | nil => intro v; cases v <;> rfl
  | cons x ts ih =>
    intro v
    cases v with
    | nil => simp [pySub, ih]
    | cons y vs => simp [pySub, ih]

lemma pySub_sum : ∀ t v : List ℚ, (pySub t v).sum = t.sum - (v.take t.length).sum := by
  intro t
  induction t with
  | nil => intro v; simp [pySub]
  | cons x ts ih =>
    intro v
    cases v with
    | nil => simp [pySub, pySub_nil]
    | cons y vs =>
      simp only [pySub, List.sum_cons, ih vs, List.length_cons, List.take_succ_cons]
      ring

/-- Every entry of a non-defaulted order's schedule is nonnegative when the
cost and the adjusted rate come from nonnegative parameters. -/
lemma madeOrder_cashflow_nonneg (c : Config) (hv : c.Valid) (month : ℤ)
    (hcost : 0 ≤ c.phone_cost) (hlr1 : 0 ≤ c.lease_rate1) (hlr2 : 0 ≤ c.lease_rate2)
    (hp0 : 0 ≤ c.prepayment_rate) (hp1 : c.prepayment_rate ≤ 1) (is_p1 : Bool) :
    ∀ l, (c.madeOrder month is_p1).get_monthly_cashflow = some l → ∀ x ∈ l, 0 ≤ x := by
  obtain ⟨ht0, ht1, -⟩ := hv.sel is_p1
  intro l hl
  rw [cashflow_eq _ ht0 ht1 rfl] at hl
  obtain rfl := (Option.some.injEq _ _).mp hl.symm
  have hsel : 0 ≤ c.sel_rate is_p1 := by
    cases is_p1 <;> simpa [Config.sel_rate]
  have halr : 0 ≤ (c.madeOrder month is_p1).lease_rate := by
    show 0 ≤ c.prepayment_rate * (c.sel_rate is_p1 / 2) +
      (1 - c.prepayment_rate) * c.sel_rate is_p1
    have h1 : 0 ≤ c.prepayment_rate * (c.sel_rate is_p1 / 2) :=
      mul_nonneg hp0 (by linarith)
    have h2 : 0 ≤ (1 - c.prepayment_rate) * c.sel_rate is_p1 :=
      mul_nonneg (by linarith) hsel
    linarith
  have hrpn : (0 : ℚ) ≤ ((c.madeOrder month is_p1).repayment_period : ℚ) := by
    have : (0 : ℤ) ≤ (c.madeOrder month is_p1).repayment_period := by
      show (0 : ℤ) ≤ c.sel_period is_p1
      omega
    exact_mod_cast this
  have hmp : 0 ≤ (c.madeOrder month is_p1).total_repayment
      / ((c.madeOrder month is_p1).repayment_period : ℚ) := by
    apply div_nonneg _ hrpn
    show 0 ≤ (c.madeOrder month is_p1).phone_cost *
      (1 + (c.madeOrder month is_p1).lease_rate)
    have hpc : 0 ≤ (c.madeOrder month is_p1).phone_cost := hcost
    exact mul_nonneg hpc (by linarith)
  intro x hx
  simp only [pyZeros, List.mem_append, List.mem_replicate, List.mem_cons] at hx
  rcases hx with ⟨-, rfl⟩ | rfl | hx
  · exact le_refl 0
  · exact mul_nonneg hmp (by exact_mod_cast ht0)
  · obtain ⟨-, rfl⟩ := hx
    exact hmp

lemma orderStep_nonneg (c : Config) (hv : c.Valid)
    (hcost : 0 ≤ c.phone_cost) (hlr1 : 0 ≤ c.lease_rate1) (hlr2 : 0 ≤ c.lease_rate2)
    (hp0 : 0 ≤ c.prepayment_rate) (hp1 : c.prepayment_rate ≤ 1)
    (hir : 0 ≤ c.investment_ratio) (hb1 : c.bad_debt_rate ≤ 1)
    (month : ℤ) (is_p1 : Bool) (s s' : RunState) (inv : ℚ)
    (h : c.orderStep month is_p1 s = some (s', inv))
    (hs : ∀ x ∈ s.total_cashflow, 0 ≤ x) :
    ∀ x ∈ s'.total_cashflow, 0 ≤ x := by
  rcases hcf : (c.madeOrder month is_p1).get_monthly_cashflow with - | cf
  · rw [orderStep_none_cf _ _ _ _ hcf] at h
    exact absurd h (by simp)
  · rcases hadd : addInto s.total_cashflow
        (cf.map fun x => x * (1 - c.bad_debt_rate) * c.investment_ratio) with - | tc
    · rw [orderStep_none_add _ _ _ _ _ hcf hadd] at h
      exact absurd h (by simp)
    · rw [orderStep_eq_some _ _ _ _ _ _ hcf hadd] at h
      simp only [Option.some.injEq, Prod.mk.injEq] at h
      have hmap : ∀ y ∈ cf.map (fun x => x * (1 - c.bad_debt_rate) * c.investment_ratio),
          0 ≤ y := by
        intro y hy
        obtain ⟨z, hz, rfl⟩ := List.mem_map.mp hy
        have hz0 := madeOrder_cashflow_nonneg c hv month hcost hlr1 hlr2 hp0 hp1
          is_p1 cf hcf z hz
        exact mul_nonneg (mul_nonneg hz0 (by linarith)) hir
      obtain ⟨rfl, -⟩ := h
      exact fun x hx => addInto_nonneg _ _ _ hadd hs hmap x hx

lemma orderLoop_nonneg (c : Config) (hv : c.Valid)
    (hcost : 0 ≤ c.phone_cost) (hlr1 : 0 ≤ c.lease_rate1) (hlr2 : 0 ≤ c.lease_rate2)
    (hp0 : 0 ≤ c.prepayment_rate) (hp1 : c.prepayment_rate ≤ 1)
    (hir : 0 ≤ c.investment_ratio) (hb1 : c.bad_debt_rate ≤ 1)
    (month : ℤ) (pdm : ℕ → Bool) :
    ∀ (n j : ℕ) (s : RunState) (acc : ℚ) (s' : RunState) (acc' : ℚ),
      c.orderLoop month pdm j n s acc = some (s', acc') →
      (∀ x ∈ s.total_cashflow, 0 ≤ x) → ∀ x ∈ s'.total_cashflow, 0 ≤ x := by
  intro n
  induction n with
  | zero =>
    intro j s acc s' acc' h hs
    obtain ⟨rfl, -⟩ : s = s' ∧ acc = acc' := by
      simpa [Config.orderLoop, Prod.mk.injEq] using h
    exact hs
  | succ n ih =>
    intro j s acc s' acc' h hs
    rcases hstep : c.orderStep month (pdm j) s with - | p
    · rw [Config.orderLoop, hstep] at h
      exact absurd h (by simp)
    · obtain ⟨s1, inv⟩ := p
      rw [Config.orderLoop, hstep] at h
      exact ih (j + 1) s1 (acc + inv) s' acc' h
        (orderStep_nonneg c hv hcost hlr1 hlr2 hp0 hp1 hir hb1 month (pdm j)
          s s1 inv hstep hs)

lemma monthStep_nonneg (c : Config) (hv : c.Valid)
    (hcost : 0 ≤ c.phone_cost) (hlr1 : 0 ≤ c.lease_rate1) (hlr2 : 0 ≤ c.lease_rate2)
    (hp0 : 0 ≤ c.prepayment_rate) (hp1 : c.prepayment_rate ≤ 1)
    (hir : 0 ≤ c.investment_ratio) (hb1 : c.bad_debt_rate ≤ 1)
    (nd : ℕ → ℕ) (pd : ℕ → ℕ → Bool) (month : ℕ) (s s' : RunState)
    (h : c.monthStep nd pd month s = some s')
    (hs : ∀ x ∈ s.total_cashflow, 0 ≤ x) :
    ∀ x ∈ s'.total_cashflow, 0 ≤ x := by
  by_cases hlo : c.monthly_order_range.1 ≤ c.monthly_order_range.2
  · simp only [Config.monthStep, if_pos hlo] at h
    rcases hloop : c.orderLoop (month : ℤ) (pd month) 0 (nd month)
        { s with monthly_order_count := s.monthly_order_count ++ [nd month] } 0
      with - | p
    · rw [hloop] at h
      exact absurd h (by simp)
    · obtain ⟨s1, inv⟩ := p
      rw [hloop] at h
      obtain rfl : ({ s1 with monthly_investments := s1.monthly_investments ++ [inv] }
          : RunState) = s' := by simpa using h
      exact orderLoop_nonneg c hv hcost hlr1 hlr2 hp0 hp1 hir hb1 (month : ℤ)
        (pd month) (nd month) 0 _ 0 s1 inv hloop hs
  · simp only [Config.monthStep, if_neg hlo] at h
    exact absurd h (by simp)

lemma simLoop_nonneg (c : Config) (hv : c.Valid)
    (hcost : 0 ≤ c.phone_cost) (hlr1 : 0 ≤ c.lease_rate1) (hlr2 : 0 ≤ c.lease_rate2)
    (hp0 : 0 ≤ c.prepayment_rate) (hp1 : c.prepayment_rate ≤ 1)
    (hir : 0 ≤ c.investment_ratio) (hb1 : c.bad_debt_rate ≤ 1)
    (nd : ℕ → ℕ) (pd : ℕ → ℕ → Bool) :
    ∀ (k month : ℕ) (s s' : RunState),
      c.simLoop nd pd month k s = some s' →
      (∀ x ∈ s.total_cashflow, 0 ≤ x) → ∀ x ∈ s'.total_cashflow, 0 ≤ x := by
  intro k
  induction k with
  | zero =>
    intro month s s' h hs
    obtain rfl : s = s' := by simpa [Config.simLoop] using h
    exact hs
  | succ k ih =>
    intro month s s' h hs
    rcases hstep : c.monthStep nd pd month s with - | s1
    · rw [Config.simLoop, hstep] at h
      exact absurd h (by simp)
    · rw [Config.simLoop, hstep] at h
      exact ih (month + 1) s1 s' h
        (monthStep_nonneg c hv hcost hlr1 hlr2 hp0 hp1 hir hb1 nd pd month s s1 hstep hs)

/-- All accumulated repayment inflows are nonnegative on a domain-valid,
nonnegative-parameter configuration with `bad_debt_rate ≤ 1`. -/
lemma simulate_nonneg (c : Config) (hv : c.Valid)
    (hcost : 0 ≤ c.phone_cost) (hlr1 : 0 ≤ c.lease_rate1) (hlr2 : 0 ≤ c.lease_rate2)
    (hp0 : 0 ≤ c.prepayment_rate) (hp1 : c.prepayment_rate ≤ 1)
    (hir : 0 ≤ c.investment_ratio) (hb1 : c.bad_debt_rate ≤ 1)
    (nd : ℕ → ℕ) (pd : ℕ → ℕ → Bool) (s st : RunState)
    (h : c.simulate nd pd s = some st) :
    ∀ x ∈ st.total_cashflow, 0 ≤ x := by
  rw [Config.simulate] at h
  refine simLoop_nonneg c hv hcost hlr1 hlr2 hp0 hp1 hir hb1 nd pd
    c.months.toNat 1 _ st h ?_
  intro x hx
  obtain ⟨-, rfl⟩ : c.max_months.toNat ≠ 0 ∧ x = 0 := by
    simpa [List.mem_replicate] using hx
  exact le_refl 0

/-- The final cumulative cash flow of a run state with scaled inflows. -/
lemma final_cum_scale (s0 : RunState) (a : ℚ) (hne : s0.total_cashflow ≠ []) :
    (s0.scaleTC a).get_cumulative_cashflow.getLast? =
      some (a * s0.total_cashflow.sum -
        (s0.monthly_investments.take s0.total_cashflow.length).sum) := by
  have hlen : (pySub (scaleL a s0.total_cashflow) s0.monthly_investments).length
      = s0.total_cashflow.length := by
    rw [pySub_length, scaleL_length]
  have hne2 : pySub (scaleL a s0.total_cashflow) s0.monthly_investments ≠ [] := by
    intro hemp
    rw [hemp] at hlen
    exact hne (List.eq_nil_of_length_eq_zero hlen.symm)
  simp only [RunState.get_cumulative_cashflow, RunState.get_net_cashflow,
    RunState.scaleTC, cumsum]
  rw [cumAux_getLast 0 _ hne2, pySub_sum, scaleL_sum, scaleL_length]
  congr 1
  ring

/-- C8: with identical parameters and identical injected draws, raising the
bad-debt rate from `b` to `b' ≥ b` (both in `[0, 1]`) never increases the
final cumulative net cash flow. -/
theorem C8_bad_debt_monotone (c : Config) (b bp : ℚ) (nd : ℕ → ℕ) (pd : ℕ → ℕ → Bool)
    (hv : c.Valid) (hm : 1 ≤ c.months)
    (hlo : c.monthly_order_range.1 ≤ c.monthly_order_range.2)
    (hcost : 0 ≤ c.phone_cost) (hlr1 : 0 ≤ c.lease_rate1) (hlr2 : 0 ≤ c.lease_rate2)
    (hp0 : 0 ≤ c.prepayment_rate) (hp1 : c.prepayment_rate ≤ 1)
    (hir : 0 ≤ c.investment_ratio)
    (hb0 : 0 ≤ b) (hb1 : b ≤ 1) (hbp0 : 0 ≤ bp) (hbp1 : bp ≤ 1) (hbb : b ≤ bp) :
    ∃ st stp v vp,
      (c.withBadDebt b).simulate nd pd RunState.init = some st ∧
      (c.withBadDebt bp).simulate nd pd RunState.init = some stp ∧
      st.get_cumulative_cashflow.getLast? = some v ∧
      stp.get_cumulative_cashflow.getLast? = some vp ∧ vp ≤ v := by
  have hv0 : (c.withBadDebt 0).Valid := hv
  obtain ⟨s0, h0, hlen0, -, -⟩ := simulate_spec (c.withBadDebt 0) hv0 nd pd
    RunState.init (show (0 : ℤ) ≤ c.months by omega) hlo
  have hS : 0 ≤ s0.total_cashflow.sum := by
    apply List.sum_nonneg
    exact simulate_nonneg (c.withBadDebt 0) hv0 hcost hlr1 hlr2 hp0 hp1 hir
      (show (0 : ℚ) ≤ 1 by norm_num) nd pd RunState.init s0 h0
  have hne : s0.total_cashflow ≠ [] := by
    have htail := hv.tail_pos
    intro hemp
    rw [hemp] at hlen0
    simp only [List.length_nil, Int.ofNat_eq_coe, Nat.cast_zero] at hlen0
    have hmx : (c.withBadDebt 0).max_months = c.months + c.repayment_tail := rfl
    omega
  have hrun_b := simulate_scale c b nd pd RunState.init
  rw [h0, Option.map_some'] at hrun_b
  have hrun_bp := simulate_scale c bp nd pd RunState.init
  rw [h0, Option.map_some'] at hrun_bp
  refine ⟨s0.scaleTC (1 - b), s0.scaleTC (1 - bp), _, _, hrun_b, hrun_bp,
    final_cum_scale s0 (1 - b) hne, final_cum_scale s0 (1 - bp) hne, ?_⟩
  have hmono : (1 - bp) * s0.total_cashflow.sum ≤ (1 - b) * s0.total_cashflow.sum :=
    mul_le_mul_of_nonneg_right (by linarith) hS
  linarith

/-- Witness for C8 at the default configuration, `b = 0` versus `b = 1/2`. -/
theorem C8_bad_debt_monotone_witness :
    ∃ st stp v vp,
      (defaultConfig.withBadDebt 0).simulate (drawsConst 19) productOne
        RunState.init = some st ∧
      (defaultConfig.withBadDebt (1/2)).simulate (drawsConst 19) productOne
        RunState.init = some stp ∧
      st.get_cumulative_cashflow.getLast? = some v ∧
      stp.get_cumulative_cashflow.getLast? = some vp ∧ vp ≤ v :=
  C8_bad_debt_monotone defaultConfig 0 (1/2) (drawsConst 19) productOne
    (by decide) (by decide) (by decide)
    (by norm_num [defaultConfig]) (by norm_num [defaultConfig])
    (by norm_num [defaultConfig]) (by norm_num [defaultConfig])
    (by norm_num [defaultConfig]) (by norm_num [defaultConfig])
    (by norm_num) (by norm_num) (by norm_num) (by norm_num) (by norm_num)

end RentApp
